import Mathlib

/-!
# Verification of the `housekeeper` system monitor

A shallow embedding of the rate computations, top-K selection, peak
auto-scaling and network-interface classification of the `housekeeper`
repository (`src/housekeeper/`), together with theorems settling the
specification claims about them.

Conventions:
* Python `int` counters are embedded as `Int`; Python `float` arithmetic is
  embedded as exact rational arithmetic over `ℚ`.
* Python `dict` snapshots are embedded as association lists
  `List (String × _)`; `dict.get` is `List.lookup`.
* Python's stable sorts (`list.sort`, and `heapq.nlargest`, documented as
  `sorted(iterable, key=key, reverse=True)[:n]`) are embedded with
  `List.mergeSort`, which Lean proves stable; the spec's reference
  "full sort then slice" is embedded separately with `List.insertionSort`.
-/

namespace Housekeeper

open List

/-! ## Stable sorting: `mergeSort` agrees with `insertionSort`

Both are stable sorts, so for any transitive and total comparison they
produce the same list.  This is the bridge between the embedded Python
sorts (`mergeSort`) and the spec's reference sort (`insertionSort`). -/

theorem takeWhile_append_of_forall {α : Type} (p : α → Bool) :
    ∀ (l₁ l₂ : List α), (∀ b ∈ l₁, p b = true) → (∀ b ∈ l₂.head?, p b = false) →
      (l₁ ++ l₂).takeWhile p = l₁ ∧ (l₁ ++ l₂).dropWhile p = l₂
  | [], [], _, _ => by simp
  | [], hd :: tl, _, h₂ => by
    have hhd : p hd = false := h₂ hd (by simp)
    simp [List.takeWhile, List.dropWhile, hhd]
  | a :: l₁, l₂, h₁, h₂ => by
    have ha : p a = true := h₁ a (by simp)
    have ih := takeWhile_append_of_forall p l₁ l₂ (fun b hb => h₁ b (by simp [hb])) h₂
    simp [List.takeWhile, List.dropWhile, ha, ih.1, ih.2]

theorem mergeSort_eq_insertionSort_of_trans_total {α : Type} (r : α → α → Prop)
    [DecidableRel r]
    (trans : ∀ a b c, r a b → r b c → r a c) (total : ∀ a b, r a b ∨ r b a) :
    ∀ l : List α, l.mergeSort (fun a b => decide (r a b)) = List.insertionSort r l := by
  have transB : ∀ a b c : α, decide (r a b) → decide (r b c) → decide (r a c) := by
    intro a b c hab hbc
    simpa using trans a b c (by simpa using hab) (by simpa using hbc)
  have totalB : ∀ a b : α, decide (r a b) || decide (r b a) := by
    intro a b
    rcases total a b with h | h <;> simp [h]
  intro l
  induction l with
  | nil => simp
  | cons a l ih =>
    obtain ⟨l₁, l₂, h₁, h₂, h₃⟩ := List.mergeSort_cons transB totalB a l
    have hs : ((a :: l).mergeSort (fun a b => decide (r a b))).Pairwise
        (fun a b => decide (r a b)) := List.sorted_mergeSort transB totalB _
    rw [h₁] at hs
    have hmem₁ : ∀ b ∈ l₁, (fun b => decide ¬ r a b) b = true := by
      intro b hb
      have := h₃ b hb
      simp only [Bool.not_eq_true'] at this
      simpa using of_decide_eq_false this
    have hmem₂ : ∀ b ∈ l₂.head?, (fun b => decide ¬ r a b) b = false := by
      intro b hb
      have hb2 : b ∈ a :: l₂ := by
        cases l₂ with
        | nil => simp at hb
        | cons c tl =>
          simp only [List.head?] at hb
          simp [Option.some_inj.mp hb]
      have hpair : (a :: l₂).Pairwise (fun a b => decide (r a b)) :=
        (List.pairwise_append.mp hs).2.1
      have : ∀ y ∈ l₂, decide (r a y) = true := fun y hy =>
        (List.pairwise_cons.mp hpair).1 y hy
      cases l₂ with
      | nil => simp at hb
      | cons c tl =>
        have hbc : b = c := by
          have := hb
          simp only [List.head?] at this
          exact (Option.some_inj.mp this).symm
        have := this c (by simp)
        subst hbc
        simp [of_decide_eq_true this]
    have hins : List.insertionSort r (a :: l) =
        ((List.insertionSort r l).takeWhile fun b => ¬ r a b) ++
          a :: ((List.insertionSort r l).dropWhile fun b => ¬ r a b) :=
      List.insertionSort_cons_eq_take_drop r a l
    have hsplit := takeWhile_append_of_forall (fun b => decide ¬ r a b) l₁ l₂ hmem₁ hmem₂
    have hl : List.insertionSort r l = l₁ ++ l₂ := by rw [← ih, h₂]
    rw [hins, hl]
    rw [show ((l₁ ++ l₂).takeWhile fun b => decide ¬ r a b) = l₁ from hsplit.1]
    rw [show ((l₁ ++ l₂).dropWhile fun b => decide ¬ r a b) = l₂ from hsplit.2]
    exact h₁

/-! ## CPU collector (`src/housekeeper/collectors/cpu.py`)

Cumulative jiffies counters and the per-entity percentage computation of
`CpuCollector.collect`. -/

structure CpuTimes where
  user : Int := 0
  nice : Int := 0
  system : Int := 0
  idle : Int := 0
  iowait : Int := 0
  irq : Int := 0
  softirq : Int := 0
  steal : Int := 0
deriving Repr, DecidableEq

def CpuTimes.total (c : CpuTimes) : Int :=
  c.user + c.nice + c.system + c.idle + c.iowait + c.irq + c.softirq + c.steal

def CpuTimes.busy (c : CpuTimes) : Int :=
  c.total - c.idle - c.iowait

structure CpuUsage where
  label : String
  user_pct : ℚ := 0
  nice_pct : ℚ := 0
  system_pct : ℚ := 0
  iowait_pct : ℚ := 0
  irq_pct : ℚ := 0
  steal_pct : ℚ := 0
  idle_pct : ℚ := 0
deriving Repr, DecidableEq

def CpuUsage.total_pct (u : CpuUsage) : ℚ := 100 - u.idle_pct

/-- Loop body of `CpuCollector.collect` for one label: no previous sample or a
zero jiffies delta yields the all-zero `CpuUsage`, otherwise each percentage is
`100 * (field delta) / (total delta)`. -/
def cpuUsageOf (name : String) (prevOpt : Option CpuTimes) (ct : CpuTimes) : CpuUsage :=
  match prevOpt with
  | none => { label := name }
  | some prev =>
    let dt : Int := ct.total - prev.total
    if dt = 0 then { label := name }
    else
      { label := name
        user_pct := 100 * ((ct.user - prev.user : Int) : ℚ) / (dt : ℚ)
        nice_pct := 100 * ((ct.nice - prev.nice : Int) : ℚ) / (dt : ℚ)
        system_pct := 100 * ((ct.system - prev.system : Int) : ℚ) / (dt : ℚ)
        iowait_pct := 100 * ((ct.iowait - prev.iowait : Int) : ℚ) / (dt : ℚ)
        irq_pct := 100 * (((ct.irq + ct.softirq) - (prev.irq + prev.softirq) : Int) : ℚ) / (dt : ℚ)
        steal_pct := 100 * ((ct.steal - prev.steal : Int) : ℚ) / (dt : ℚ)
        idle_pct := 100 * (((ct.idle + ct.iowait) - (prev.idle + prev.iowait) : Int) : ℚ) / (dt : ℚ) }

/-- Iteration order of `CpuCollector.collect`: `sorted(curr.keys(), key=lambda x: (len(x), x))`. -/
def cpuKeyRel (a b : String × CpuTimes) : Prop :=
  a.1.length < b.1.length ∨ (a.1.length = b.1.length ∧ a.1 ≤ b.1)

instance : DecidableRel cpuKeyRel := fun a b =>
  inferInstanceAs (Decidable (a.1.length < b.1.length ∨
    (a.1.length = b.1.length ∧ a.1 ≤ b.1)))

/-- `CpuCollector.collect` over one cycle, with the previous and current
snapshot dicts as association lists. -/
def cpuCollect (prev curr : List (String × CpuTimes)) : List CpuUsage :=
  (List.insertionSort cpuKeyRel curr).map
    (fun e => cpuUsageOf e.1 (List.lookup e.1 prev) e.2)

/-! ## Disk collector (`src/housekeeper/collectors/disk.py`) -/

structure DiskStats where
  name : String
  rd_sectors : Int := 0
  wr_sectors : Int := 0
  rd_ios : Int := 0
  wr_ios : Int := 0
deriving Repr, DecidableEq

structure DiskUsage where
  name : String
  read_bytes_sec : ℚ := 0
  write_bytes_sec : ℚ := 0
  read_iops : ℚ := 0
  write_iops : ℚ := 0
  raid_level : String := ""
  raid_members : List String := []
  raid_state : String := ""
  raid_member_of : String := ""
deriving Repr, DecidableEq

def DiskUsage.total_bytes_sec (d : DiskUsage) : ℚ :=
  d.read_bytes_sec + d.write_bytes_sec

/-- Rate computation of `DiskCollector.collect` for one device name:
`DiskUsage(name=name)` when there is no previous sample or `dt <= 0`, else
sector counts scaled by 512 bytes and divided by the wall-clock `dt`. -/
def diskRawUsage (name : String) (dt : ℚ) (prevOpt : Option DiskStats)
    (d : DiskStats) : DiskUsage :=
  match prevOpt with
  | none => { name := name }
  | some prev =>
    if dt ≤ 0 then { name := name }
    else
      { name := name
        read_bytes_sec := 512 * ((d.rd_sectors - prev.rd_sectors : Int) : ℚ) / dt
        write_bytes_sec := 512 * ((d.wr_sectors - prev.wr_sectors : Int) : ℚ) / dt
        read_iops := ((d.rd_ios - prev.rd_ios : Int) : ℚ) / dt
        write_iops := ((d.wr_ios - prev.wr_ios : Int) : ℚ) / dt }

/-- RAID metadata attachment in `DiskCollector.collect` (`self._md_info` /
`self._member_to_md`, passed here as association lists). -/
def diskAttachRaid (mdInfo : List (String × String × List String × String))
    (memberToMd : List (String × String)) (du : DiskUsage) : DiskUsage :=
  match List.lookup du.name mdInfo with
  | some info =>
    { du with raid_level := info.1, raid_members := info.2.1, raid_state := info.2.2 }
  | none =>
    match List.lookup du.name memberToMd with
    | some md => { du with raid_member_of := md }
    | none => du

/-- `_sort_key` inside `DiskCollector.collect`. -/
def diskSortKey (d : DiskUsage) : ℕ × String × String :=
  if d.raid_level ≠ "" then (0, d.name, "")
  else if d.raid_member_of ≠ "" then (0, d.raid_member_of, d.name)
  else (1, d.name, "")

/-- Lexicographic comparison of Python triples `(int, str, str)`. -/
def tripleLe (a b : ℕ × String × String) : Prop :=
  a.1 < b.1 ∨ (a.1 = b.1 ∧ (a.2.1 < b.2.1 ∨ (a.2.1 = b.2.1 ∧ a.2.2 ≤ b.2.2)))

instance : DecidableRel tripleLe := fun a b =>
  inferInstanceAs (Decidable (a.1 < b.1 ∨
    (a.1 = b.1 ∧ (a.2.1 < b.2.1 ∨ (a.2.1 = b.2.1 ∧ a.2.2 ≤ b.2.2)))))

def diskSortRel (x y : DiskUsage) : Prop := tripleLe (diskSortKey x) (diskSortKey y)

instance : DecidableRel diskSortRel := fun x y =>
  inferInstanceAs (Decidable (tripleLe (diskSortKey x) (diskSortKey y)))

def diskNameRel (a b : String × DiskStats) : Prop := a.1 ≤ b.1

instance : DecidableRel diskNameRel := fun a b =>
  inferInstanceAs (Decidable (a.1 ≤ b.1))

/-- `DiskCollector.collect` over one cycle: iterate the current snapshot's
device names in sorted order, compute rates against the previous snapshot,
attach RAID metadata, then sort by `_sort_key`. -/
def diskCollect (mdInfo : List (String × String × List String × String))
    (memberToMd : List (String × String)) (dt : ℚ)
    (prev curr : List (String × DiskStats)) : List DiskUsage :=
  let entries := List.insertionSort diskNameRel curr
  let usages := entries.map
    (fun e => diskAttachRaid mdInfo memberToMd (diskRawUsage e.1 dt (List.lookup e.1 prev) e.2))
  List.insertionSort diskSortRel usages

/-! ## Network collector (`src/housekeeper/collectors/network.py`) -/

inductive NetType where
  | WAN
  | LAN
  | VIRTUAL
  | UNKNOWN
deriving Repr, DecidableEq

structure NetStats where
  name : String
  rx_bytes : Int := 0
  tx_bytes : Int := 0
deriving Repr, DecidableEq

structure NetUsage where
  name : String
  net_type : NetType := NetType.UNKNOWN
  rx_bytes_sec : ℚ := 0
  tx_bytes_sec : ℚ := 0
  bond_mode : String := ""
  bond_members : Option (List String) := none
  bond_member_of : String := ""
deriving Repr, DecidableEq

def NetUsage.total_bytes_sec (u : NetUsage) : ℚ :=
  u.rx_bytes_sec + u.tx_bytes_sec

/-- `type_order = {WAN: 0, LAN: 1, VIRTUAL: 2, UNKNOWN: 3}` in
`NetworkCollector.collect`. -/
def typeOrder (t : NetType) : ℕ :=
  match t with
  | NetType.WAN => 0
  | NetType.LAN => 1
  | NetType.VIRTUAL => 2
  | NetType.UNKNOWN => 3

/-- Rate computation of `NetworkCollector.collect` for one interface:
zero-rate `NetUsage` when there is no previous sample or `dt <= 0`, else byte
deltas divided by the wall-clock `dt`. -/
def netRawUsage (cls : List (String × NetType)) (name : String) (dt : ℚ)
    (prevOpt : Option NetStats) (c : NetStats) : NetUsage :=
  let nt := (List.lookup name cls).getD NetType.UNKNOWN
  match prevOpt with
  | none => { name := name, net_type := nt }
  | some prev =>
    if dt ≤ 0 then { name := name, net_type := nt }
    else
      { name := name
        net_type := nt
        rx_bytes_sec := ((c.rx_bytes - prev.rx_bytes : Int) : ℚ) / dt
        tx_bytes_sec := ((c.tx_bytes - prev.tx_bytes : Int) : ℚ) / dt }

/-- Bonding metadata attachment in `NetworkCollector.collect`. -/
def netAttachBond (bondInfo : List (String × String × List String))
    (memberToBond : List (String × String)) (nu : NetUsage) : NetUsage :=
  match List.lookup nu.name bondInfo with
  | some mi => { nu with bond_mode := mi.1, bond_members := some mi.2 }
  | none =>
    match List.lookup nu.name memberToBond with
    | some b => { nu with bond_member_of := b }
    | none => nu

/-- Iteration order of `NetworkCollector.collect`:
`sorted(curr.keys(), key=lambda n: (type_order.get(classification.get(n, UNKNOWN), 3), n))`. -/
def netKeyRel (cls : List (String × NetType)) (a b : String × NetStats) : Prop :=
  typeOrder ((List.lookup a.1 cls).getD NetType.UNKNOWN) <
      typeOrder ((List.lookup b.1 cls).getD NetType.UNKNOWN) ∨
    (typeOrder ((List.lookup a.1 cls).getD NetType.UNKNOWN) =
        typeOrder ((List.lookup b.1 cls).getD NetType.UNKNOWN) ∧ a.1 ≤ b.1)

instance (cls : List (String × NetType)) : DecidableRel (netKeyRel cls) := fun a b =>
  inferInstanceAs (Decidable (_ ∨ _))

/-- `_sort_key` inside `NetworkCollector.collect` (used when bonds exist). -/
def netSortKey (cls : List (String × NetType)) (n : NetUsage) : ℕ × String × ℕ × String :=
  let t := typeOrder n.net_type
  if n.bond_mode ≠ "" then (t, n.name, 0, "")
  else if n.bond_member_of ≠ "" then
    (typeOrder ((List.lookup n.bond_member_of cls).getD NetType.UNKNOWN),
      n.bond_member_of, 1, n.name)
  else (t, n.name, 0, "")

/-- Lexicographic comparison of Python 4-tuples `(int, str, int, str)`. -/
def quadLe (a b : ℕ × String × ℕ × String) : Prop :=
  a.1 < b.1 ∨ (a.1 = b.1 ∧ (a.2.1 < b.2.1 ∨ (a.2.1 = b.2.1 ∧
    (a.2.2.1 < b.2.2.1 ∨ (a.2.2.1 = b.2.2.1 ∧ a.2.2.2 ≤ b.2.2.2)))))

instance : DecidableRel quadLe := fun a b =>
  inferInstanceAs (Decidable (_ ∨ _))

def netSortRel (cls : List (String × NetType)) (x y : NetUsage) : Prop :=
  quadLe (netSortKey cls x) (netSortKey cls y)

instance (cls : List (String × NetType)) : DecidableRel (netSortRel cls) := fun x y =>
  inferInstanceAs (Decidable (quadLe (netSortKey cls x) (netSortKey cls y)))

/-- `NetworkCollector.collect` over one cycle. -/
def netCollect (cls : List (String × NetType))
    (bondInfo : List (String × String × List String))
    (memberToBond : List (String × String)) (dt : ℚ)
    (prev curr : List (String × NetStats)) : List NetUsage :=
  let entries := List.insertionSort (netKeyRel cls) curr
  let usages := entries.map
    (fun e => netAttachBond bondInfo memberToBond
      (netRawUsage cls e.1 dt (List.lookup e.1 prev) e.2))
  if bondInfo ≠ [] then List.insertionSort (netSortRel cls) usages else usages

/-! ### Interface classification (`_classify_interfaces`, `_get_iface_ip`) -/

/-- Python `s.startswith(p)`. -/
def strStarts (s p : String) : Bool := p.data.isPrefixOf s.data

/-- `_VIRTUAL_PREFIXES` from `network.py`. -/
def virtualNameStarts : List String :=
  ["docker", "veth", "br-", "virbr", "lxc", "flannel", "cni", "calico", "tun", "tap"]

/-- `_get_iface_ip`: it opens `/proc/net/fib_trie` (content passed here as
`fibTrie`, `none` when the file is unreadable), reads the whole content, and
returns `None` on both the success path and the `OSError` path — the file
content is discarded. -/
def getIfaceIp (fibTrie : Option String) : Option String :=
  match fibTrie with
  | some _ => none
  | none => none

/-- Per-interface branch of `_classify_interfaces`.  `parseIsPrivate` models
`ipaddress.ip_address(ip).is_private` (`none` = `ValueError`). -/
def classifyIface (defaultIfaces : List String) (fibTrie : Option String)
    (parseIsPrivate : String → Option Bool) (iface : String) : NetType :=
  if virtualNameStarts.any (fun p => strStarts iface p) then NetType.VIRTUAL
  else if iface ∈ defaultIfaces then NetType.WAN
  else
    match getIfaceIp fibTrie with
    | some ip =>
      match parseIsPrivate ip with
      | some true => NetType.LAN
      | some false => NetType.WAN
      | none => NetType.LAN
    | none => NetType.LAN

def stringLeRel (a b : String) : Prop := a ≤ b

instance : DecidableRel stringLeRel := fun a b =>
  inferInstanceAs (Decidable (a ≤ b))

/-- `_classify_interfaces` over the sorted `/sys/class/net` entries, skipping
`lo`. -/
def classifyInterfaces (defaultIfaces : List String) (fibTrie : Option String)
    (parseIsPrivate : String → Option Bool) (ifaces : List String) :
    List (String × NetType) :=
  (List.insertionSort stringLeRel ifaces).filterMap (fun iface =>
    if iface = "lo" then none
    else some (iface, classifyIface defaultIfaces fibTrie parseIsPrivate iface))

/-! ## Top-K selection (`process.py`, `conntrack.py`) -/

structure ProcStat where
  pid : Int
  comm : String
  procState : String
  utime : Int
  stime : Int
  rss : Int
deriving Repr, DecidableEq

structure IpTraffic where
  remote_ip : String
  tx_bytes_sec : ℚ := 0
  rx_bytes_sec : ℚ := 0
  conn_count : ℕ := 0
deriving Repr, DecidableEq

def IpTraffic.total_bytes_sec (u : IpTraffic) : ℚ :=
  u.tx_bytes_sec + u.rx_bytes_sec

/-- Descending comparison by score; `descBy score a b` holds when `a` may come
before `b` in a descending ordering (ties allowed). -/
def descBy {α : Type} (score : α → ℚ) (a b : α) : Prop := score b ≤ score a

instance {α : Type} (score : α → ℚ) : DecidableRel (descBy score) := fun a b =>
  inferInstanceAs (Decidable (score b ≤ score a))

/-- `heapq.nlargest(n, l, key=score)`, embedded by its documented semantics
`sorted(l, key=score, reverse=True)[:n]`: a stable descending sort (Python's
timsort, a merge sort — embedded as `List.mergeSort`) followed by `take n`. -/
def nlargest {α : Type} (score : α → ℚ) (n : ℕ) (l : List α) : List α :=
  (l.mergeSort (fun a b => decide (descBy score a b))).take n

/-- Python's stable `list.sort(key=score, reverse=True)`. -/
def pySortDesc {α : Type} (score : α → ℚ) (l : List α) : List α :=
  l.mergeSort (fun a b => decide (descBy score a b))

/-- Candidate scoring of `ProcessCollector._collect_linux`: the score of a
candidate tuple `(cpu_pct, pid, stat)` is its first component. -/
def candScore (c : ℚ × Int × ProcStat) : ℚ := c.1

/-- Top-N selection of `ProcessCollector._collect_linux`:
`n = self.top_n if self.top_n > 0 else len(candidates)` followed by
`heapq.nlargest(n, candidates, key=lambda x: x[0])`. -/
def processTopSelect (top_n : ℕ) (candidates : List (ℚ × Int × ProcStat)) :
    List (ℚ × Int × ProcStat) :=
  let n := if 0 < top_n then top_n else candidates.length
  nlargest candScore n candidates

/-- Top-N selection of `ConntrackCollector.collect`:
`usages.sort(key=lambda u: u.total_bytes_sec, reverse=True)` then
`usages[:self.top_n] if self.top_n > 0 else usages`. -/
def conntrackTopSelect (top_n : ℕ) (usages : List IpTraffic) : List IpTraffic :=
  let s := pySortDesc IpTraffic.total_bytes_sec usages
  if 0 < top_n then s.take top_n else s

/-- Modelled from the spec: the reference `top_k` implementation, "a full
sort-then-slice": sort all items by score descending (stable) and take the
first `k`.  Written with `List.insertionSort`, independently of the
`List.mergeSort`-based embedding of the Python sorts. -/
def specSortDesc {α : Type} (score : α → ℚ) (l : List α) : List α :=
  List.insertionSort (descBy score) l

/-- Modelled from the spec: `top_k(items, k)` as "full sort then slice". -/
def specTopK {α : Type} (score : α → ℚ) (k : ℕ) (l : List α) : List α :=
  (specSortDesc score l).take k

/-! ## Peak-tracking auto-scaler (`src/housekeeper/ui/renderer.py`)

`Renderer.__init__` sets `self._peak_disk_bps = self._peak_net_bps = 1_000.0`;
`_render_disks` / `_render_networks` update it each cycle. -/

/-- One auto-scale update, as inlined in `Renderer._render_disks` and
`Renderer._render_networks`:
`if cur_peak > peak: peak = cur_peak else: peak = max(peak * 0.95, cur_peak, 1_000.0)`. -/
def peakUpdate (peak observed : ℚ) : ℚ :=
  if observed > peak then observed
  else max (max (peak * (95 / 100)) observed) 1000

/-- The peak after a sequence of per-cycle observations, starting from the
initial value `1_000.0` set in `Renderer.__init__`. -/
def peakRun (l : List ℚ) : ℚ := l.foldl peakUpdate 1000

/-- Python `max(iterable, default=0)`. -/
def pyMaxD (l : List ℚ) : ℚ :=
  match l with
  | [] => 0
  | x :: xs => xs.foldl max x

/-- `cur_peak` of `_render_disks`. -/
def diskCurPeak (disks : List DiskUsage) : ℚ :=
  max (pyMaxD (disks.map DiskUsage.read_bytes_sec))
    (pyMaxD (disks.map DiskUsage.write_bytes_sec))

/-- `cur_peak` of `_render_networks`. -/
def netCurPeak (nets : List NetUsage) : ℚ :=
  max (pyMaxD (nets.map NetUsage.rx_bytes_sec))
    (pyMaxD (nets.map NetUsage.tx_bytes_sec))

/-- The `self._peak_disk_bps` update step in `Renderer._render_disks`. -/
def renderDiskPeakStep (peak : ℚ) (disks : List DiskUsage) : ℚ :=
  peakUpdate peak (diskCurPeak disks)

/-- The `self._peak_net_bps` update step in `Renderer._render_networks`. -/
def renderNetPeakStep (peak : ℚ) (nets : List NetUsage) : ℚ :=
  peakUpdate peak (netCurPeak nets)

/-! ## Helper lemmas -/

theorem diskRawUsage_name (name : String) (dt : ℚ) (p : Option DiskStats)
    (d : DiskStats) : (diskRawUsage name dt p d).name = name := by
  cases p with
  | none => rfl
  | some prev =>
    unfold diskRawUsage
    by_cases h : dt ≤ 0 <;> simp [h]

theorem diskRawUsage_nonpos (name : String) (dt : ℚ) (p : Option DiskStats)
    (d : DiskStats) (h : dt ≤ 0) : diskRawUsage name dt p d = { name := name } := by
  cases p with
  | none => rfl
  | some prev => simp [diskRawUsage, h]

theorem diskRawUsage_pos (name : String) (dt : ℚ) (p d : DiskStats) (h : 0 < dt) :
    diskRawUsage name dt (some p) d =
      { name := name
        read_bytes_sec := 512 * ((d.rd_sectors - p.rd_sectors : Int) : ℚ) / dt
        write_bytes_sec := 512 * ((d.wr_sectors - p.wr_sectors : Int) : ℚ) / dt
        read_iops := ((d.rd_ios - p.rd_ios : Int) : ℚ) / dt
        write_iops := ((d.wr_ios - p.wr_ios : Int) : ℚ) / dt } := by
  simp [diskRawUsage, not_le.mpr h]

theorem diskAttachRaid_fields (mdInfo : List (String × String × List String × String))
    (m2md : List (String × String)) (du : DiskUsage) :
    (diskAttachRaid mdInfo m2md du).name = du.name ∧
      (diskAttachRaid mdInfo m2md du).read_bytes_sec = du.read_bytes_sec ∧
      (diskAttachRaid mdInfo m2md du).write_bytes_sec = du.write_bytes_sec ∧
      (diskAttachRaid mdInfo m2md du).read_iops = du.read_iops ∧
      (diskAttachRaid mdInfo m2md du).write_iops = du.write_iops := by
  unfold diskAttachRaid
  cases List.lookup du.name mdInfo with
  | some info => simp
  | none =>
    cases List.lookup du.name m2md with
    | some md => simp
    | none => simp

theorem netRawUsage_name (cls : List (String × NetType)) (name : String) (dt : ℚ)
    (p : Option NetStats) (c : NetStats) : (netRawUsage cls name dt p c).name = name := by
  cases p with
  | none => rfl
  | some prev =>
    unfold netRawUsage
    by_cases h : dt ≤ 0 <;> simp [h]

theorem netRawUsage_nonpos (cls : List (String × NetType)) (name : String) (dt : ℚ)
    (p : Option NetStats) (c : NetStats) (h : dt ≤ 0) :
    netRawUsage cls name dt p c =
      { name := name, net_type := (List.lookup name cls).getD NetType.UNKNOWN } := by
  cases p with
  | none => rfl
  | some prev => simp [netRawUsage, h]

theorem netRawUsage_pos (cls : List (String × NetType)) (name : String) (dt : ℚ)
    (p c : NetStats) (h : 0 < dt) :
    netRawUsage cls name dt (some p) c =
      { name := name
        net_type := (List.lookup name cls).getD NetType.UNKNOWN
        rx_bytes_sec := ((c.rx_bytes - p.rx_bytes : Int) : ℚ) / dt
        tx_bytes_sec := ((c.tx_bytes - p.tx_bytes : Int) : ℚ) / dt } := by
  simp [netRawUsage, not_le.mpr h]

theorem netAttachBond_fields (bondInfo : List (String × String × List String))
    (m2b : List (String × String)) (nu : NetUsage) :
    (netAttachBond bondInfo m2b nu).name = nu.name ∧
      (netAttachBond bondInfo m2b nu).rx_bytes_sec = nu.rx_bytes_sec ∧
      (netAttachBond bondInfo m2b nu).tx_bytes_sec = nu.tx_bytes_sec := by
  unfold netAttachBond
  cases List.lookup nu.name bondInfo with
  | some mi => simp
  | none =>
    cases List.lookup nu.name m2b with
    | some b => simp
    | none => simp

theorem mem_diskCollect (mdInfo : List (String × String × List String × String))
    (m2md : List (String × String)) (dt : ℚ) (prev curr : List (String × DiskStats))
    (e : String × DiskStats) (he : e ∈ curr) :
    diskAttachRaid mdInfo m2md (diskRawUsage e.1 dt (List.lookup e.1 prev) e.2) ∈
      diskCollect mdInfo m2md dt prev curr := by
  unfold diskCollect
  rw [List.mem_insertionSort]
  exact List.mem_map_of_mem _ ((List.mem_insertionSort diskNameRel).mpr he)

theorem mem_netCollect (cls : List (String × NetType))
    (bondInfo : List (String × String × List String)) (m2b : List (String × String))
    (dt : ℚ) (prev curr : List (String × NetStats))
    (e : String × NetStats) (he : e ∈ curr) :
    netAttachBond bondInfo m2b (netRawUsage cls e.1 dt (List.lookup e.1 prev) e.2) ∈
      netCollect cls bondInfo m2b dt prev curr := by
  unfold netCollect
  have hm : netAttachBond bondInfo m2b (netRawUsage cls e.1 dt (List.lookup e.1 prev) e.2) ∈
      (List.insertionSort (netKeyRel cls) curr).map
        (fun e => netAttachBond bondInfo m2b (netRawUsage cls e.1 dt (List.lookup e.1 prev) e.2)) :=
    List.mem_map_of_mem _ ((List.mem_insertionSort (netKeyRel cls)).mpr he)
  by_cases hb : bondInfo = []
  · subst hb
    simpa using hm
  · simp only [if_pos (by simpa using hb : bondInfo ≠ [])]
    rw [List.mem_insertionSort]
    exact hm

theorem diskCollect_mem_elim (mdInfo : List (String × String × List String × String))
    (m2md : List (String × String)) (dt : ℚ) (prev curr : List (String × DiskStats))
    (u : DiskUsage) (hu : u ∈ diskCollect mdInfo m2md dt prev curr) :
    ∃ e ∈ curr, u = diskAttachRaid mdInfo m2md (diskRawUsage e.1 dt (List.lookup e.1 prev) e.2) := by
  unfold diskCollect at hu
  rw [List.mem_insertionSort] at hu
  obtain ⟨e, he, hue⟩ := List.mem_map.mp hu
  exact ⟨e, (List.mem_insertionSort diskNameRel).mp he, hue.symm⟩

theorem netCollect_mem_elim (cls : List (String × NetType))
    (bondInfo : List (String × String × List String)) (m2b : List (String × String))
    (dt : ℚ) (prev curr : List (String × NetStats))
    (u : NetUsage) (hu : u ∈ netCollect cls bondInfo m2b dt prev curr) :
    ∃ e ∈ curr, u = netAttachBond bondInfo m2b (netRawUsage cls e.1 dt (List.lookup e.1 prev) e.2) := by
  unfold netCollect at hu
  have hu2 : u ∈ (List.insertionSort (netKeyRel cls) curr).map
      (fun e => netAttachBond bondInfo m2b (netRawUsage cls e.1 dt (List.lookup e.1 prev) e.2)) := by
    by_cases hb : bondInfo = []
    · simpa [hb] using hu
    · simp only [if_pos (by simpa using hb : bondInfo ≠ [])] at hu
      rw [List.mem_insertionSort] at hu
      exact hu
  obtain ⟨e, he, hue⟩ := List.mem_map.mp hu2
  exact ⟨e, (List.mem_insertionSort (netKeyRel cls)).mp he, hue.symm⟩

theorem hundred_sub_div (a d : ℚ) (hd : d ≠ 0) :
    100 - 100 * a / d = 100 * (d - a) / d := by
  field_simp
  ring

/-! ## Claim theorems: CPU collector -/

/-- C3: the CPU collector's percentage fields are ratios of per-field counter
delta to total counter delta (not delta over wall time): for any
previous/current `CpuTimes` pair with positive total delta,
`user_pct = 100 * (user_now - user_prev) / (total_now - total_prev)`; for the
concrete pair `{user: 1000, system: 200, idle: 8800}` →
`{user: 1050, system: 210, idle: 8840}` this gives `user_pct = 50`,
`system_pct = 10`, `idle_pct = 40`. -/
theorem cpu_pct_ratio_of_counter_deltas (prev ct : CpuTimes) (name : String)
    (h : 0 < ct.total - prev.total) :
    (cpuUsageOf name (some prev) ct).user_pct =
        100 * ((ct.user - prev.user : Int) : ℚ) / ((ct.total - prev.total : Int) : ℚ) ∧
      (cpuUsageOf "cpu0" (some { user := 1000, system := 200, idle := 8800 })
          { user := 1050, system := 210, idle := 8840 }).user_pct = 50 ∧
      (cpuUsageOf "cpu0" (some { user := 1000, system := 200, idle := 8800 })
          { user := 1050, system := 210, idle := 8840 }).system_pct = 10 ∧
      (cpuUsageOf "cpu0" (some { user := 1000, system := 200, idle := 8800 })
          { user := 1050, system := 210, idle := 8840 }).idle_pct = 40 := by
  have hne : ct.total - prev.total ≠ 0 := by omega
  refine ⟨by simp [cpuUsageOf, hne], ?_, ?_, ?_⟩ <;>
    norm_num [cpuUsageOf, CpuTimes.total]

/-- C3 witness: the theorem instantiated at the spec's concrete example. -/
theorem cpu_pct_ratio_of_counter_deltas_witness :
    (cpuUsageOf "cpu0" (some { user := 1000, system := 200, idle := 8800 })
        { user := 1050, system := 210, idle := 8840 }).user_pct =
      100 * ((({ user := 1050, system := 210, idle := 8840 } : CpuTimes).user -
          ({ user := 1000, system := 200, idle := 8800 } : CpuTimes).user : Int) : ℚ) /
        ((({ user := 1050, system := 210, idle := 8840 } : CpuTimes).total -
          ({ user := 1000, system := 200, idle := 8800 } : CpuTimes).total : Int) : ℚ) :=
  (cpu_pct_ratio_of_counter_deltas { user := 1000, system := 200, idle := 8800 }
    { user := 1050, system := 210, idle := 8840 } "cpu0"
    (by norm_num [CpuTimes.total])).1

/-- C10: `idle_pct` is computed from the combined `idle + iowait` counter
deltas and `irq_pct` from the combined `irq + softirq` deltas; consequently
`total_pct = 100 - idle_pct` equals `100 * (busy delta) / (total delta)` with
`busy = total - idle - iowait`, i.e. iowait time counts as idle, not busy. -/
theorem cpu_idle_pct_includes_iowait (prev ct : CpuTimes) (name : String)
    (h : 0 < ct.total - prev.total) :
    (cpuUsageOf name (some prev) ct).idle_pct =
        100 * (((ct.idle + ct.iowait) - (prev.idle + prev.iowait) : Int) : ℚ) /
          ((ct.total - prev.total : Int) : ℚ) ∧
      (cpuUsageOf name (some prev) ct).irq_pct =
        100 * (((ct.irq + ct.softirq) - (prev.irq + prev.softirq) : Int) : ℚ) /
          ((ct.total - prev.total : Int) : ℚ) ∧
      (cpuUsageOf name (some prev) ct).total_pct =
        100 * ((ct.busy - prev.busy : Int) : ℚ) / ((ct.total - prev.total : Int) : ℚ) := by
  have hne : ct.total - prev.total ≠ 0 := by omega
  refine ⟨by simp [cpuUsageOf, hne], by simp [cpuUsageOf, hne], ?_⟩
  have hq : ((ct.total - prev.total : Int) : ℚ) ≠ 0 := by
    exact_mod_cast hne
  have hidle : (cpuUsageOf name (some prev) ct).idle_pct =
      100 * (((ct.idle + ct.iowait) - (prev.idle + prev.iowait) : Int) : ℚ) /
        ((ct.total - prev.total : Int) : ℚ) := by simp [cpuUsageOf, hne]
  rw [CpuUsage.total_pct, hidle]
  rw [show (ct.busy - prev.busy : Int) =
      (ct.total - prev.total) - ((ct.idle + ct.iowait) - (prev.idle + prev.iowait)) from by
    simp only [CpuTimes.busy]; ring]
  rw [Int.cast_sub]
  rw [hundred_sub_div _ _ hq]
  push_cast
  ring

/-- C10 witness: the theorem instantiated at the concrete example of the spec,
where 40 of the 100 delta jiffies are idle and none are iowait. -/
theorem cpu_idle_pct_includes_iowait_witness :
    (cpuUsageOf "cpu0" (some { user := 1000, system := 200, idle := 8800 })
        { user := 1050, system := 210, idle := 8840 }).total_pct =
      100 * ((({ user := 1050, system := 210, idle := 8840 } : CpuTimes).busy -
          ({ user := 1000, system := 200, idle := 8800 } : CpuTimes).busy : Int) : ℚ) /
        ((({ user := 1050, system := 210, idle := 8840 } : CpuTimes).total -
          ({ user := 1000, system := 200, idle := 8800 } : CpuTimes).total : Int) : ℚ) :=
  (cpu_idle_pct_includes_iowait { user := 1000, system := 200, idle := 8800 }
    { user := 1050, system := 210, idle := 8840 } "cpu0"
    (by norm_num [CpuTimes.total])).2.2

theorem diskRawUsage_none (name : String) (dt : ℚ) (d : DiskStats) :
    diskRawUsage name dt none d = { name := name } := rfl

theorem netRawUsage_none (cls : List (String × NetType)) (name : String) (dt : ℚ)
    (c : NetStats) :
    netRawUsage cls name dt none c =
      { name := name, net_type := (List.lookup name cls).getD NetType.UNKNOWN } := rfl

/-! ## Claim theorems: non-positive dt (C2) -/

/-- C2 counterexample: the CPU collector guards only `dt == 0`, not `dt < 0`.
With a negative jiffies delta (counter reset: total 200 → 100) the division is
still performed and `user_pct` comes out as `100`, not `0`. -/
theorem cpu_negative_jiffies_delta_divides :
    ({ user := 100 } : CpuTimes).total - ({ user := 200 } : CpuTimes).total < 0 ∧
      (cpuUsageOf "cpu" (some { user := 200 }) { user := 100 }).user_pct = 100 := by
  constructor
  · norm_num [CpuTimes.total]
  · norm_num [cpuUsageOf, CpuTimes.total]

/-- C2 (amended): for the disk and network collectors, `dt <= 0` (zero or
negative wall-clock delta) yields all-zero rate fields and no division; the
CPU collector zeroes its percentages only when the jiffies delta is exactly
`0` — a negative jiffies delta still divides (safely, since the divisor is
non-zero), so only the `dt == 0` half of the guard holds there. -/
theorem nonpositive_dt_zero_rates :
    (∀ (mdInfo : List (String × String × List String × String))
        (m2md : List (String × String)) (dt : ℚ), dt ≤ 0 →
        ∀ (prev curr : List (String × DiskStats)),
        ∀ u ∈ diskCollect mdInfo m2md dt prev curr,
          u.read_bytes_sec = 0 ∧ u.write_bytes_sec = 0 ∧
            u.read_iops = 0 ∧ u.write_iops = 0) ∧
      (∀ (cls : List (String × NetType))
          (bondInfo : List (String × String × List String))
          (m2b : List (String × String)) (dt : ℚ), dt ≤ 0 →
          ∀ (prev curr : List (String × NetStats)),
          ∀ u ∈ netCollect cls bondInfo m2b dt prev curr,
            u.rx_bytes_sec = 0 ∧ u.tx_bytes_sec = 0) ∧
      (∀ (name : String) (prev ct : CpuTimes), ct.total - prev.total = 0 →
          cpuUsageOf name (some prev) ct = { label := name }) := by
  refine ⟨?_, ?_, ?_⟩
  · intro mdInfo m2md dt hdt prev curr u hu
    obtain ⟨e, _, rfl⟩ := diskCollect_mem_elim mdInfo m2md dt prev curr u hu
    rw [diskRawUsage_nonpos _ _ _ _ hdt]
    have hf := diskAttachRaid_fields mdInfo m2md { name := e.1 }
    exact ⟨hf.2.1, hf.2.2.1, hf.2.2.2.1, hf.2.2.2.2⟩
  · intro cls bondInfo m2b dt hdt prev curr u hu
    obtain ⟨e, _, rfl⟩ := netCollect_mem_elim cls bondInfo m2b dt prev curr u hu
    rw [netRawUsage_nonpos _ _ _ _ _ hdt]
    have hf := netAttachBond_fields bondInfo m2b
      { name := e.1, net_type := (List.lookup e.1 cls).getD NetType.UNKNOWN }
    exact ⟨hf.2.1, hf.2.2⟩
  · intro name prev ct h
    simp [cpuUsageOf, h]

/-- C2 witness: the amended theorem applied at `dt = 0` for a concrete disk
device and at a zero jiffies delta for the CPU. -/
theorem nonpositive_dt_zero_rates_witness :
    (({ name := "sda" } : DiskUsage).read_bytes_sec = 0 ∧
        ({ name := "sda" } : DiskUsage).write_bytes_sec = 0 ∧
        ({ name := "sda" } : DiskUsage).read_iops = 0 ∧
        ({ name := "sda" } : DiskUsage).write_iops = 0) ∧
      cpuUsageOf "cpu" (some { user := 5 }) { user := 5 } = { label := "cpu" } := by
  constructor
  · refine nonpositive_dt_zero_rates.1 [] [] 0 le_rfl []
      [("sda", { name := "sda", rd_sectors := 7 })] { name := "sda" } ?_
    have h := mem_diskCollect [] [] 0 [] [("sda", { name := "sda", rd_sectors := 7 })]
      ("sda", { name := "sda", rd_sectors := 7 }) (List.mem_singleton.mpr rfl)
    simpa [diskRawUsage, diskAttachRaid] using h
  · exact nonpositive_dt_zero_rates.2.2 "cpu" { user := 5 } { user := 5 }
      (by norm_num [CpuTimes.total])

/-! ## Claim theorems: reset clamp (C1) -/

/-- C1 counterexample: neither the disk nor the network collector clamps a
counter reset to `0.0`.  With `dt = 1` and a sector counter falling 10 → 0 the
disk read rate is `-5120` bytes/sec; with an rx counter falling 10 → 0 the
network rx rate is `-10` bytes/sec — negative, where the claim demands `0.0`. -/
theorem reset_rate_negative :
    (diskCollect [] [] 1 [("sda", { name := "sda", rd_sectors := 10 })]
        [("sda", { name := "sda", rd_sectors := 0 })]).map DiskUsage.read_bytes_sec =
      [-5120] ∧
      (netCollect [] [] [] 1 [("eth0", { name := "eth0", rx_bytes := 10 })]
        [("eth0", { name := "eth0", rx_bytes := 0 })]).map NetUsage.rx_bytes_sec =
      [-10] := by
  constructor
  · norm_num [diskCollect, diskAttachRaid, diskRawUsage, List.insertionSort,
      List.orderedInsert, List.lookup]
  · norm_num [netCollect, netAttachBond, netRawUsage, List.insertionSort,
      List.orderedInsert, List.lookup]

/-- C1 (amended): for an entity present in both snapshots and `dt > 0`, each
output rate is the *unclamped* difference quotient
`(current_value - previous_value) / dt` (times 512 for the disk byte rates);
there is no `max(0.0, ...)`, so a counter reset yields a negative rate, not
`0.0`. -/
theorem rates_are_unclamped_difference_quotients :
    (∀ (mdInfo : List (String × String × List String × String))
        (m2md : List (String × String)) (dt : ℚ)
        (prev curr : List (String × DiskStats)) (name : String) (d p : DiskStats),
        0 < dt → (name, d) ∈ curr → List.lookup name prev = some p →
        ∃ u ∈ diskCollect mdInfo m2md dt prev curr, u.name = name ∧
          u.read_bytes_sec = 512 * ((d.rd_sectors - p.rd_sectors : Int) : ℚ) / dt ∧
          u.write_bytes_sec = 512 * ((d.wr_sectors - p.wr_sectors : Int) : ℚ) / dt ∧
          u.read_iops = ((d.rd_ios - p.rd_ios : Int) : ℚ) / dt ∧
          u.write_iops = ((d.wr_ios - p.wr_ios : Int) : ℚ) / dt) ∧
      (∀ (cls : List (String × NetType))
          (bondInfo : List (String × String × List String))
          (m2b : List (String × String)) (dt : ℚ)
          (prev curr : List (String × NetStats)) (name : String) (c p : NetStats),
          0 < dt → (name, c) ∈ curr → List.lookup name prev = some p →
          ∃ u ∈ netCollect cls bondInfo m2b dt prev curr, u.name = name ∧
            u.rx_bytes_sec = ((c.rx_bytes - p.rx_bytes : Int) : ℚ) / dt ∧
            u.tx_bytes_sec = ((c.tx_bytes - p.tx_bytes : Int) : ℚ) / dt) := by
  constructor
  · intro mdInfo m2md dt prev curr name d p hdt hmem hprev
    refine ⟨_, mem_diskCollect mdInfo m2md dt prev curr (name, d) hmem, ?_⟩
    rw [show ((name, d) : String × DiskStats).1 = name from rfl,
      show ((name, d) : String × DiskStats).2 = d from rfl, hprev,
      diskRawUsage_pos _ _ _ _ hdt]
    have hf := diskAttachRaid_fields mdInfo m2md
      { name := name
        read_bytes_sec := 512 * ((d.rd_sectors - p.rd_sectors : Int) : ℚ) / dt
        write_bytes_sec := 512 * ((d.wr_sectors - p.wr_sectors : Int) : ℚ) / dt
        read_iops := ((d.rd_ios - p.rd_ios : Int) : ℚ) / dt
        write_iops := ((d.wr_ios - p.wr_ios : Int) : ℚ) / dt }
    exact ⟨hf.1, hf.2.1, hf.2.2.1, hf.2.2.2.1, hf.2.2.2.2⟩
  · intro cls bondInfo m2b dt prev curr name c p hdt hmem hprev
    refine ⟨_, mem_netCollect cls bondInfo m2b dt prev curr (name, c) hmem, ?_⟩
    rw [show ((name, c) : String × NetStats).1 = name from rfl,
      show ((name, c) : String × NetStats).2 = c from rfl, hprev,
      netRawUsage_pos _ _ _ _ _ hdt]
    have hf := netAttachBond_fields bondInfo m2b
      { name := name
        net_type := (List.lookup name cls).getD NetType.UNKNOWN
        rx_bytes_sec := ((c.rx_bytes - p.rx_bytes : Int) : ℚ) / dt
        tx_bytes_sec := ((c.tx_bytes - p.tx_bytes : Int) : ℚ) / dt }
    exact ⟨hf.1, hf.2.1, hf.2.2⟩

/-- C1 witness: the amended theorem applied to the counter-reset input
(sectors 10 → 0, `dt = 1`), exhibiting the negative unclamped disk rate. -/
theorem rates_are_unclamped_difference_quotients_witness :
    ∃ u ∈ diskCollect [] [] 1 [("sda", { name := "sda", rd_sectors := 10 })]
        [("sda", { name := "sda", rd_sectors := 0 })], u.name = "sda" ∧
      u.read_bytes_sec = 512 * (((0 : Int) - (10 : Int) : Int) : ℚ) / 1 ∧
      u.write_bytes_sec = 512 * (((0 : Int) - (0 : Int) : Int) : ℚ) / 1 ∧
      u.read_iops = (((0 : Int) - (0 : Int) : Int) : ℚ) / 1 ∧
      u.write_iops = (((0 : Int) - (0 : Int) : Int) : ℚ) / 1 :=
  rates_are_unclamped_difference_quotients.1 [] [] 1
    [("sda", { name := "sda", rd_sectors := 10 })]
    [("sda", { name := "sda", rd_sectors := 0 })] "sda"
    { name := "sda", rd_sectors := 0 } { name := "sda", rd_sectors := 10 }
    (by norm_num) (List.mem_singleton.mpr rfl) rfl

/-! ## Claim theorems: entity appearance / disappearance (C7) -/

/-- C7: an entity key present only in the current snapshot appears in the
result with all rate fields `0.0`; an entity key present only in the previous
snapshot is omitted — every result entry's name is a current-snapshot key
(disk and network collectors). -/
theorem new_entity_zero_rates_dropped_entity_omitted :
    (∀ (mdInfo : List (String × String × List String × String))
        (m2md : List (String × String)) (dt : ℚ)
        (prev curr : List (String × DiskStats)) (name : String) (d : DiskStats),
        (name, d) ∈ curr → List.lookup name prev = none →
        ∃ u ∈ diskCollect mdInfo m2md dt prev curr, u.name = name ∧
          u.read_bytes_sec = 0 ∧ u.write_bytes_sec = 0 ∧
            u.read_iops = 0 ∧ u.write_iops = 0) ∧
      (∀ (mdInfo : List (String × String × List String × String))
          (m2md : List (String × String)) (dt : ℚ)
          (prev curr : List (String × DiskStats)),
          ∀ u ∈ diskCollect mdInfo m2md dt prev curr, u.name ∈ curr.map Prod.fst) ∧
      (∀ (cls : List (String × NetType))
          (bondInfo : List (String × String × List String))
          (m2b : List (String × String)) (dt : ℚ)
          (prev curr : List (String × NetStats)) (name : String) (c : NetStats),
          (name, c) ∈ curr → List.lookup name prev = none →
          ∃ u ∈ netCollect cls bondInfo m2b dt prev curr, u.name = name ∧
            u.rx_bytes_sec = 0 ∧ u.tx_bytes_sec = 0) ∧
      (∀ (cls : List (String × NetType))
          (bondInfo : List (String × String × List String))
          (m2b : List (String × String)) (dt : ℚ)
          (prev curr : List (String × NetStats)),
          ∀ u ∈ netCollect cls bondInfo m2b dt prev curr, u.name ∈ curr.map Prod.fst) := by
  refine ⟨?_, ?_, ?_, ?_⟩
  · intro mdInfo m2md dt prev curr name d hmem hprev
    refine ⟨_, mem_diskCollect mdInfo m2md dt prev curr (name, d) hmem, ?_⟩
    rw [show ((name, d) : String × DiskStats).1 = name from rfl, hprev, diskRawUsage_none]
    have hf := diskAttachRaid_fields mdInfo m2md { name := name }
    exact ⟨hf.1, hf.2.1, hf.2.2.1, hf.2.2.2.1, hf.2.2.2.2⟩
  · intro mdInfo m2md dt prev curr u hu
    obtain ⟨e, he, rfl⟩ := diskCollect_mem_elim mdInfo m2md dt prev curr u hu
    have hf := diskAttachRaid_fields mdInfo m2md (diskRawUsage e.1 dt (List.lookup e.1 prev) e.2)
    rw [hf.1, diskRawUsage_name]
    exact List.mem_map_of_mem Prod.fst he
  · intro cls bondInfo m2b dt prev curr name c hmem hprev
    refine ⟨_, mem_netCollect cls bondInfo m2b dt prev curr (name, c) hmem, ?_⟩
    rw [show ((name, c) : String × NetStats).1 = name from rfl, hprev, netRawUsage_none]
    have hf := netAttachBond_fields bondInfo m2b
      { name := name, net_type := (List.lookup name cls).getD NetType.UNKNOWN }
    exact ⟨hf.1, hf.2.1, hf.2.2⟩
  · intro cls bondInfo m2b dt prev curr u hu
    obtain ⟨e, he, rfl⟩ := netCollect_mem_elim cls bondInfo m2b dt prev curr u hu
    have hf := netAttachBond_fields bondInfo m2b (netRawUsage cls e.1 dt (List.lookup e.1 prev) e.2)
    rw [hf.1, netRawUsage_name]
    exact List.mem_map_of_mem Prod.fst he

/-- C7 witness: a device present only in the current snapshot (empty previous
snapshot) appears with all-zero rates. -/
theorem new_entity_zero_rates_dropped_entity_omitted_witness :
    ∃ u ∈ diskCollect [] [] 1 [] [("sdb", { name := "sdb", rd_sectors := 42 })],
      u.name = "sdb" ∧ u.read_bytes_sec = 0 ∧ u.write_bytes_sec = 0 ∧
        u.read_iops = 0 ∧ u.write_iops = 0 :=
  new_entity_zero_rates_dropped_entity_omitted.1 [] [] 1 []
    [("sdb", { name := "sdb", rd_sectors := 42 })] "sdb"
    { name := "sdb", rd_sectors := 42 } (List.mem_singleton.mpr rfl) rfl

/-! ## Top-K helper lemmas -/

theorem descBy_trans {α : Type} (score : α → ℚ) :
    ∀ a b c, descBy score a b → descBy score b c → descBy score a c :=
  fun _ _ _ hab hbc => le_trans hbc hab

theorem descBy_total {α : Type} (score : α → ℚ) :
    ∀ a b, descBy score a b ∨ descBy score b a :=
  fun a b => le_total (score b) (score a)

theorem descBy_transB {α : Type} (score : α → ℚ) :
    ∀ a b c : α, decide (descBy score a b) → decide (descBy score b c) →
      decide (descBy score a c) := by
  intro a b c hab hbc
  simpa using descBy_trans score a b c (by simpa using hab) (by simpa using hbc)

theorem descBy_totalB {α : Type} (score : α → ℚ) :
    ∀ a b : α, decide (descBy score a b) || decide (descBy score b a) := by
  intro a b
  rcases descBy_total score a b with h | h <;> simp [h]

/-- The embedded Python stable descending sort coincides with the spec's
reference sort. -/
theorem pySortDesc_eq_specSortDesc {α : Type} (score : α → ℚ) (l : List α) :
    pySortDesc score l = specSortDesc score l :=
  mergeSort_eq_insertionSort_of_trans_total (descBy score)
    (descBy_trans score) (descBy_total score) l

theorem length_pySortDesc {α : Type} (score : α → ℚ) (l : List α) :
    (pySortDesc score l).length = l.length :=
  List.length_mergeSort l

theorem pair_sublist_pySortDesc {α : Type} (score : α → ℚ) {a b : α} {l : List α}
    (hs : score b ≤ score a) (hsub : [a, b] <+ l) :
    [a, b] <+ pySortDesc score l :=
  List.pair_sublist_mergeSort (descBy_transB score) (descBy_totalB score)
    (by simpa [descBy] using hs) hsub

theorem nodup_pySortDesc {α : Type} (score : α → ℚ) {l : List α} (h : l.Nodup) :
    (pySortDesc score l).Nodup :=
  (List.mergeSort_perm l _).symm.nodup h

/-- In a list without duplicates, a pair that occurs in order and whose two
elements both survive `take k` still occurs in order in the `take k`. -/
theorem pair_sublist_take {α : Type} :
    ∀ (s : List α) (k : ℕ) (a b : α), s.Nodup → [a, b] <+ s →
      a ∈ s.take k → b ∈ s.take k → [a, b] <+ s.take k
  | [], _, a, _, _, _, ha, _ => absurd ha (by simp)
  | _ :: _, 0, a, _, _, _, ha, _ => absurd ha (by simp)
  | x :: s, k + 1, a, b, hnd, hsub, ha, hb => by
    rw [List.take_succ_cons] at ha hb ⊢
    have hx : x ∉ s := (List.nodup_cons.mp hnd).1
    have hnds : s.Nodup := (List.nodup_cons.mp hnd).2
    cases hsub with
    | cons₂ _ h =>
      refine List.Sublist.cons₂ _ ?_
      rcases List.mem_cons.mp hb with hb1 | hb2
      · exfalso
        apply hx
        rw [← hb1]
        exact h.subset (by simp)
      · exact List.singleton_sublist.mpr hb2
    | cons _ h =>
      have has : a ∈ s := h.subset (by simp)
      have hbs : b ∈ s := h.subset (by simp)
      have ha2 : a ∈ s.take k := by
        rcases List.mem_cons.mp ha with h1 | h2
        · exact absurd (h1 ▸ has) hx
        · exact h2
      have hb2 : b ∈ s.take k := by
        rcases List.mem_cons.mp hb with h1 | h2
        · exact absurd (h1 ▸ hbs) hx
        · exact h2
      exact (pair_sublist_take s k a b hnds h ha2 hb2).cons x

theorem pair_sublist_take_pySortDesc {α : Type} (score : α → ℚ) (l : List α) (n : ℕ)
    {a b : α} (hnd : l.Nodup) (hsub : [a, b] <+ l) (hs : score a = score b)
    (ha : a ∈ (pySortDesc score l).take n) (hb : b ∈ (pySortDesc score l).take n) :
    [a, b] <+ (pySortDesc score l).take n :=
  pair_sublist_take (pySortDesc score l) n a b (nodup_pySortDesc score hnd)
    (pair_sublist_pySortDesc score hs.ge hsub) ha hb

/-! ## Claim theorems: top-K selection (C4, C5, C6) -/

/-- C4: for `0 < k ≤ len`, the top-K selection of the process collector
(`heapq.nlargest`) and of the connection collector (reverse sort + slice)
returns exactly `k` items, equal as a sequence to the spec's reference
"fully sort by score descending, take the first k". -/
theorem topk_matches_sort_then_slice :
    (∀ (cands : List (ℚ × Int × ProcStat)) (k : ℕ), 0 < k → k ≤ cands.length →
        processTopSelect k cands = specTopK candScore k cands ∧
          (processTopSelect k cands).length = k) ∧
      (∀ (us : List IpTraffic) (k : ℕ), 0 < k → k ≤ us.length →
        conntrackTopSelect k us = specTopK IpTraffic.total_bytes_sec k us ∧
          (conntrackTopSelect k us).length = k) := by
  constructor
  · intro cands k hk hkle
    have he : processTopSelect k cands = (pySortDesc candScore cands).take k := by
      simp [processTopSelect, nlargest, pySortDesc, if_pos hk]
    constructor
    · rw [he, pySortDesc_eq_specSortDesc]
      rfl
    · rw [he, List.length_take, length_pySortDesc]
      omega
  · intro us k hk hkle
    have he : conntrackTopSelect k us =
        (pySortDesc IpTraffic.total_bytes_sec us).take k := by
      simp [conntrackTopSelect, if_pos hk]
    constructor
    · rw [he, pySortDesc_eq_specSortDesc]
      rfl
    · rw [he, List.length_take, length_pySortDesc]
      omega

/-- C4 witness: a 3-element candidate list with `k = 2`. -/
theorem topk_matches_sort_then_slice_witness :
    (processTopSelect 2 [(1, 1, ⟨1, "a", "R", 0, 0, 0⟩), (2, 2, ⟨2, "b", "R", 0, 0, 0⟩),
        (1, 3, ⟨3, "c", "R", 0, 0, 0⟩)] =
      specTopK candScore 2 [(1, 1, ⟨1, "a", "R", 0, 0, 0⟩), (2, 2, ⟨2, "b", "R", 0, 0, 0⟩),
        (1, 3, ⟨3, "c", "R", 0, 0, 0⟩)] ∧
      (processTopSelect 2 [(1, 1, ⟨1, "a", "R", 0, 0, 0⟩), (2, 2, ⟨2, "b", "R", 0, 0, 0⟩),
        (1, 3, ⟨3, "c", "R", 0, 0, 0⟩)]).length = 2) ∧
      (conntrackTopSelect 1 [⟨"1.2.3.4", 5, 5, 1⟩, ⟨"5.6.7.8", 3, 3, 1⟩] =
        specTopK IpTraffic.total_bytes_sec 1 [⟨"1.2.3.4", 5, 5, 1⟩, ⟨"5.6.7.8", 3, 3, 1⟩] ∧
        (conntrackTopSelect 1 [⟨"1.2.3.4", 5, 5, 1⟩, ⟨"5.6.7.8", 3, 3, 1⟩]).length = 1) :=
  ⟨topk_matches_sort_then_slice.1 _ 2 (by norm_num) (by norm_num),
    topk_matches_sort_then_slice.2 _ 1 (by norm_num) (by norm_num)⟩

/-- C5: top-K selection is tie-break stable: two distinct items of the input
with equal scores that both appear in the selected top-K appear there in their
input relative order (process and connection collectors). -/
theorem topk_tie_break_stable :
    (∀ (cands : List (ℚ × Int × ProcStat)) (k : ℕ) (a b : ℚ × Int × ProcStat),
        cands.Nodup → [a, b] <+ cands → candScore a = candScore b →
        a ∈ processTopSelect k cands → b ∈ processTopSelect k cands →
        [a, b] <+ processTopSelect k cands) ∧
      (∀ (us : List IpTraffic) (k : ℕ) (a b : IpTraffic),
        us.Nodup → [a, b] <+ us →
        IpTraffic.total_bytes_sec a = IpTraffic.total_bytes_sec b →
        a ∈ conntrackTopSelect k us → b ∈ conntrackTopSelect k us →
        [a, b] <+ conntrackTopSelect k us) := by
  constructor
  · intro cands k a b hnd hsub hsc ha hb
    have he : processTopSelect k cands =
        (pySortDesc candScore cands).take (if 0 < k then k else cands.length) := rfl
    rw [he] at ha hb ⊢
    exact pair_sublist_take_pySortDesc candScore cands _ hnd hsub hsc ha hb
  · intro us k a b hnd hsub hsc ha hb
    by_cases hk : 0 < k
    · have he : conntrackTopSelect k us =
          (pySortDesc IpTraffic.total_bytes_sec us).take k := by
        simp [conntrackTopSelect, if_pos hk]
      rw [he] at ha hb ⊢
      exact pair_sublist_take_pySortDesc IpTraffic.total_bytes_sec us k hnd hsub hsc ha hb
    · have he : conntrackTopSelect k us = pySortDesc IpTraffic.total_bytes_sec us := by
        simp [conntrackTopSelect, hk]
      rw [he]
      exact pair_sublist_pySortDesc IpTraffic.total_bytes_sec hsc.ge hsub

/-- C5 witness: two equal-scored connections both inside the top 2 keep their
input order. -/
theorem topk_tie_break_stable_witness :
    [⟨"1.2.3.4", 5, 5, 1⟩, ⟨"5.6.7.8", 4, 6, 2⟩] <+
      conntrackTopSelect 2 [⟨"1.2.3.4", 5, 5, 1⟩, ⟨"5.6.7.8", 4, 6, 2⟩] := by
  have hmem : ∀ x ∈ ([⟨"1.2.3.4", 5, 5, 1⟩, ⟨"5.6.7.8", 4, 6, 2⟩] : List IpTraffic),
      x ∈ conntrackTopSelect 2 [⟨"1.2.3.4", 5, 5, 1⟩, ⟨"5.6.7.8", 4, 6, 2⟩] := by
    intro x hx
    have he : conntrackTopSelect 2 [⟨"1.2.3.4", 5, 5, 1⟩, ⟨"5.6.7.8", 4, 6, 2⟩] =
        (pySortDesc IpTraffic.total_bytes_sec
          [⟨"1.2.3.4", 5, 5, 1⟩, ⟨"5.6.7.8", 4, 6, 2⟩]).take 2 := by
      simp [conntrackTopSelect]
    rw [he, List.take_of_length_le (by rw [length_pySortDesc]; simp)]
    exact List.mem_mergeSort.mpr hx
  exact topk_tie_break_stable.2 [⟨"1.2.3.4", 5, 5, 1⟩, ⟨"5.6.7.8", 4, 6, 2⟩] 2
    ⟨"1.2.3.4", 5, 5, 1⟩ ⟨"5.6.7.8", 4, 6, 2⟩ (by simp) (List.Sublist.refl _)
    (by norm_num [IpTraffic.total_bytes_sec]) (hmem _ (by simp)) (hmem _ (by simp))

/-- C6: `k = 0` and `k = len` both return the whole input sorted descending
by score (the "show everything" fallback), for both collectors. -/
theorem topk_boundary_returns_all :
    (∀ cands : List (ℚ × Int × ProcStat),
        processTopSelect 0 cands = specSortDesc candScore cands ∧
          processTopSelect cands.length cands = specSortDesc candScore cands) ∧
      (∀ us : List IpTraffic,
        conntrackTopSelect 0 us = specSortDesc IpTraffic.total_bytes_sec us ∧
          conntrackTopSelect us.length us = specSortDesc IpTraffic.total_bytes_sec us) := by
  constructor
  · intro cands
    constructor
    · rw [show processTopSelect 0 cands =
          (pySortDesc candScore cands).take cands.length from rfl]
      rw [List.take_of_length_le (le_of_eq (length_pySortDesc candScore cands))]
      exact pySortDesc_eq_specSortDesc candScore cands
    · by_cases h : 0 < cands.length
      · have he : processTopSelect cands.length cands =
            (pySortDesc candScore cands).take cands.length := by
          simp [processTopSelect, nlargest, pySortDesc, if_pos h]
        rw [he, List.take_of_length_le (le_of_eq (length_pySortDesc candScore cands))]
        exact pySortDesc_eq_specSortDesc candScore cands
      · have hc : cands = [] := List.length_eq_zero.mp (by omega)
        subst hc
        rfl
  · intro us
    constructor
    · have he : conntrackTopSelect 0 us = pySortDesc IpTraffic.total_bytes_sec us := by
        simp [conntrackTopSelect]
      rw [he]
      exact pySortDesc_eq_specSortDesc _ us
    · by_cases h : 0 < us.length
      · have he : conntrackTopSelect us.length us =
            (pySortDesc IpTraffic.total_bytes_sec us).take us.length := by
          simp [conntrackTopSelect, if_pos h]
        rw [he, List.take_of_length_le (le_of_eq (length_pySortDesc _ us))]
        exact pySortDesc_eq_specSortDesc _ us
      · have hc : us = [] := List.length_eq_zero.mp (by omega)
        subst hc
        simp [conntrackTopSelect, pySortDesc, specSortDesc]

/-! ## Peak auto-scaler helper lemmas -/

theorem peakUpdate_ge_observed (peak observed : ℚ) :
    observed ≤ peakUpdate peak observed := by
  unfold peakUpdate
  by_cases h : observed > peak
  · simp [h]
  · simp only [if_neg h]
    exact le_max_of_le_left (le_max_right _ _)

theorem peakUpdate_ge_floor (peak observed : ℚ) (h : 1000 ≤ peak) :
    1000 ≤ peakUpdate peak observed := by
  unfold peakUpdate
  by_cases hgt : observed > peak
  · rw [if_pos hgt]
    linarith
  · rw [if_neg hgt]
    exact le_max_right _ _

theorem foldl_peakUpdate_ge_floor :
    ∀ (l : List ℚ) (p : ℚ), 1000 ≤ p → 1000 ≤ l.foldl peakUpdate p
  | [], _, hp => hp
  | x :: l, p, hp => foldl_peakUpdate_ge_floor l (peakUpdate p x) (peakUpdate_ge_floor p x hp)

/-! ## Claim theorems: peak-tracking auto-scaler (C8) -/

/-- C8: the per-cycle peak update jumps up instantly
(`observed > peak → new = observed`) and otherwise decays to
`max(peak * 0.95, observed, 1000.0)`; consequently the new peak is never below
the latest observation, and over any observation sequence starting from the
initial value `1000.0` the peak never falls below the floor `1000.0`. -/
theorem peak_autoscale_ok :
    (∀ peak observed : ℚ, observed > peak → peakUpdate peak observed = observed) ∧
      (∀ peak observed : ℚ, ¬ observed > peak →
        peakUpdate peak observed = max (max (peak * (95 / 100)) observed) 1000) ∧
      (∀ peak observed : ℚ, observed ≤ peakUpdate peak observed) ∧
      (∀ l : List ℚ, 1000 ≤ peakRun l) := by
  refine ⟨?_, ?_, peakUpdate_ge_observed, ?_⟩
  · intro peak observed h
    simp [peakUpdate, h]
  · intro peak observed h
    simp [peakUpdate, h]
  · intro l
    exact foldl_peakUpdate_ge_floor l 1000 le_rfl

/-- C8 witness: a spike to 2000 jumps up instantly, a following quiet cycle
decays to `1900 = max(2000 * 0.95, 500, 1000)`, stays above the observation,
and a spike-then-quiet run stays at or above the floor. -/
theorem peak_autoscale_ok_witness :
    peakUpdate 1000 2000 = 2000 ∧
      peakUpdate 2000 500 = max (max (2000 * (95 / 100)) 500) 1000 ∧
      (500 : ℚ) ≤ peakUpdate 2000 500 ∧
      1000 ≤ peakRun [2000, 0, 0] :=
  ⟨peak_autoscale_ok.1 1000 2000 (by norm_num),
    peak_autoscale_ok.2.1 2000 500 (by norm_num),
    peak_autoscale_ok.2.2.1 2000 500,
    peak_autoscale_ok.2.2.2 [2000, 0, 0]⟩

/-! ## Claim theorems: interface classification (C9) -/

/-- C9 (code bug): `_get_iface_ip` reads `/proc/net/fib_trie` but discards the
content and returns `None` on every path, so the private/non-private IP rule
of `_classify_interfaces` is dead code: a non-virtual interface that is not a
default-route interface is classified `LAN` regardless of its address — even
when the system assigns it a public address (here `8.8.8.8` visible in the
fib_trie content), where the claimed precedence requires `WAN`. -/
theorem iface_ip_lookup_is_stubbed_so_public_ip_gets_lan :
    (∀ fibTrie : Option String, getIfaceIp fibTrie = none) ∧
      (∀ parseIsPrivate : String → Option Bool,
        classifyIface ["eth0"] (some "|-- 8.8.8.8 /32 host") parseIsPrivate "eth1" =
          NetType.LAN) := by
  constructor
  · intro t
    cases t <;> rfl
  · intro p
    rw [classifyIface]
    rw [if_neg (by decide), if_neg (by decide)]
    rfl

end Housekeeper
